import Mathlib

/-
  Formal model of the EIMS invoice-integration module.

  The definitions below are shallow embeddings of:
    - utils/signer.py            (canonicalize_json)
    - utils/auth.py              (eims_login)
    - models/eims_certificate.py (expiry classification, single-active-certificate
                                  constraint, expiry sweep)
    - models/account_move.py     (send_to_eims, action_post, _parse_eims_error,
                                  retry entry points)

  Modelling conventions: Python dates are integer day numbers, datetimes are
  natural numbers, JSON scalar numbers are integers, Odoo falsy Char fields are
  the empty string, and falsy Text/Binary fields are Option.none.
-/

namespace EIMS

/-- JSON values, the argument type of signer.canonicalize_json
    (Python dicts are association lists of string keys). -/
inductive Json where
  | null : Json
  | bool (b : Bool) : Json
  | num (n : Int) : Json
  | str (s : String) : Json
  | arr (elems : List Json) : Json
  | obj (entries : List (String × Json)) : Json

/-- Insert a key-value pair into a key-ordered association list. -/
def insertKV (p : String × Json) : List (String × Json) → List (String × Json)
  | [] => [p]
  | q :: qs => if p.1 ≤ q.1 then p :: q :: qs else q :: insertKV p qs

/-- Sort an association list by key (the `sort_keys=True` of json.dumps). -/
def sortKVs : List (String × Json) → List (String × Json)
  | [] => []
  | p :: ps => insertKV p (sortKVs ps)

/-- Strict key order on entries is vacuously antisymmetric. -/
instance : IsAntisymm (String × Json) (fun a b => a.1 < b.1) :=
  ⟨fun _ _ h1 h2 => absurd h1 (lt_asymm h2)⟩

mutual
/-- Recursively sort object keys at every nesting level. -/
def sortJson : Json → Json
  | .null => .null
  | .bool b => .bool b
  | .num n => .num n
  | .str s => .str s
  | .arr xs => .arr (sortJsonList xs)
  | .obj kvs => .obj (sortKVs (sortJsonObj kvs))

def sortJsonList : List Json → List Json
  | [] => []
  | x :: xs => sortJson x :: sortJsonList xs

def sortJsonObj : List (String × Json) → List (String × Json)
  | [] => []
  | (k, v) :: kvs => (k, sortJson v) :: sortJsonObj kvs
end

/-- Decimal digit character. -/
def digitChar (d : Nat) : Char :=
  match d % 10 with
  | 0 => '0' | 1 => '1' | 2 => '2' | 3 => '3' | 4 => '4'
  | 5 => '5' | 6 => '6' | 7 => '7' | 8 => '8' | _ => '9'

/-- Decimal representation of a natural number. -/
def natChars (n : Nat) : List Char :=
  if _h : n < 10 then [digitChar n]
  else natChars (n / 10) ++ [digitChar (n % 10)]

/-- Decimal representation of an integer (json.dumps on a Python int). -/
def intChars (n : Int) : List Char :=
  if n < 0 then '-' :: natChars (-n).toNat else natChars n.toNat

/-- Hexadecimal digit character (lowercase, as CPython json emits). -/
def hexDigit (d : Nat) : Char :=
  match d % 16 with
  | 0 => '0' | 1 => '1' | 2 => '2' | 3 => '3' | 4 => '4' | 5 => '5'
  | 6 => '6' | 7 => '7' | 8 => '8' | 9 => '9' | 10 => 'a' | 11 => 'b'
  | 12 => 'c' | 13 => 'd' | 14 => 'e' | _ => 'f'

/-- One backslash-u escape of a 16-bit code unit. -/
def uEscape4 (n : Nat) : List Char :=
  ['\\', 'u', hexDigit (n / 4096), hexDigit (n / 256), hexDigit (n / 16), hexDigit n]

/-- Escape a character the way json.dumps (ensure_ascii=True, the default)
    does inside a string literal. -/
def escapeChar (c : Char) : List Char :=
  if c = '"' then ['\\', '"']
  else if c = '\\' then ['\\', '\\']
  else if c = '\x08' then ['\\', 'b']
  else if c = '\t' then ['\\', 't']
  else if c = '\n' then ['\\', 'n']
  else if c = '\x0c' then ['\\', 'f']
  else if c = '\r' then ['\\', 'r']
  else if c.toNat < 32 then uEscape4 c.toNat
  else if c.toNat ≤ 126 then [c]
  else if c.toNat ≤ 65535 then uEscape4 c.toNat
  else uEscape4 (55296 + (c.toNat - 65536) / 1024) ++ uEscape4 (56320 + (c.toNat - 65536) % 1024)

/-- A JSON string literal. -/
def serStr (s : String) : List Char :=
  '"' :: (s.data.flatMap escapeChar) ++ ['"']

mutual
/-- Compact serialization (separators (',', ':'), no sorting here). -/
def serVal : Json → List Char
  | .null => "null".data
  | .bool b => (if b then "true" else "false").data
  | .num n => intChars n
  | .str s => serStr s
  | .arr xs => '[' :: serList xs ++ [']']
  | .obj kvs => '\x7b' :: serObj kvs ++ ['\x7d']

def serList : List Json → List Char
  | [] => []
  | x :: xs => serVal x ++ serListRest xs

def serListRest : List Json → List Char
  | [] => []
  | x :: xs => ',' :: serVal x ++ serListRest xs

def serObj : List (String × Json) → List Char
  | [] => []
  | (k, v) :: kvs => serStr k ++ ':' :: serVal v ++ serObjRest kvs

def serObjRest : List (String × Json) → List Char
  | [] => []
  | (k, v) :: kvs => ',' :: serStr k ++ ':' :: serVal v ++ serObjRest kvs
end

/-- The canonical string produced by
    json.dumps(data, separators=(',', ':'), sort_keys=True). -/
def canonicalString (v : Json) : String := String.mk (serVal (sortJson v))

/-- UTF-8 encoding of one character. -/
def utf8EncodeChar (c : Char) : List Nat :=
  let n := c.toNat
  if n < 128 then [n]
  else if n < 2048 then [192 + n / 64, 128 + n % 64]
  else if n < 65536 then [224 + n / 4096, 128 + n / 64 % 64, 128 + n % 64]
  else [240 + n / 262144, 128 + n / 4096 % 64, 128 + n / 64 % 64, 128 + n % 64]

/-- UTF-8 encoding of a character list. -/
def utf8Encode (cs : List Char) : List Nat := cs.flatMap utf8EncodeChar

/-- signer.canonicalize_json: canonical JSON bytes,
    json.dumps(data, separators=(',', ':'), sort_keys=True).encode('utf-8'). -/
def canonicalize_json (v : Json) : List Nat := utf8Encode (serVal (sortJson v))

/-- Boolean check that a list of strings is nondecreasing. -/
def strSortedB : List String → Bool
  | [] => true
  | [_] => true
  | a :: b :: rest => decide (a ≤ b) && strSortedB (b :: rest)

mutual
/-- Keys are sorted (≤) at every object node. -/
def keysSorted : Json → Bool
  | .null | .bool _ | .num _ | .str _ => true
  | .arr xs => keysSortedList xs
  | .obj kvs => strSortedB (kvs.map Prod.fst) && keysSortedObj kvs

def keysSortedList : List Json → Bool
  | [] => true
  | x :: xs => keysSorted x && keysSortedList xs

def keysSortedObj : List (String × Json) → Bool
  | [] => true
  | (_, v) :: kvs => keysSorted v && keysSortedObj kvs
end

mutual
/-- No string occurring in the value (keys included) contains a space. -/
def spaceFree : Json → Bool
  | .null | .bool _ | .num _ => true
  | .str s => s.data.all (fun c => !(c = ' '))
  | .arr xs => spaceFreeList xs
  | .obj kvs => spaceFreeObj kvs

def spaceFreeList : List Json → Bool
  | [] => true
  | x :: xs => spaceFree x && spaceFreeList xs

def spaceFreeObj : List (String × Json) → Bool
  | [] => true
  | (k, v) :: kvs => k.data.all (fun c => !(c = ' ')) && spaceFree v && spaceFreeObj kvs
end

/-! Auth client: utils/auth.py eims_login. -/

/-- Login credentials of eims_login. -/
structure LoginRequest where
  clientId : String
  clientSecret : String
  apikey : String
  tin : String

/-- The inner request object built by eims_login (camelCase, tin in body). -/
def login_request_json (r : LoginRequest) : Json :=
  .obj [("clientId", .str r.clientId), ("clientSecret", .str r.clientSecret),
        ("apikey", .str r.apikey), ("tin", .str r.tin)]

/-- The full_payload dict assembled by eims_login:
    request plus signature plus certificate. -/
def login_full_payload (r : LoginRequest) (signature certificate : String) : Json :=
  .obj [("request", login_request_json r), ("signature", .str signature),
        ("certificate", .str certificate)]

/-- The JSON body eims_login actually passes to requests.post
    (the json=request_obj argument of the POST call); the assembled
    full_payload is not what goes on the wire. -/
def login_sent_body (r : LoginRequest) (_signature _certificate : String) : Json :=
  login_request_json r

/-- Transport-level outcome of the login POST. jsonOk records whether the
    response body parses as JSON; jsonErrMsg is the message of the exception
    response.json() would raise; accessToken models presence of the nested
    data.accessToken field. -/
inductive LoginTransport where
  | timeout
  | connFail (msg : String)
  | resp (status : Nat) (text : String) (jsonOk : Bool) (jsonErrMsg : String)
         (accessToken : Option String)

/-- Result of eims_login given the transport outcome: the access token, or the
    message of the exception it raises. The missing-token message interpolates
    the parsed body, which text stands in for here; the inner raises sit
    inside the try block, so the outer handler wraps them in a second
    EIMS-login-failed prefix. -/
def eims_login_result (t : LoginTransport) (timeoutSecs : Nat) : Except String String :=
  match t with
  | .timeout => .error ("EIMS login request timed out after " ++ toString timeoutSecs ++ " seconds")
  | .connFail m => .error ("EIMS login connection error: " ++ m)
  | .resp status text jsonOk jsonErrMsg accessToken =>
    if status = 200 then
      if jsonOk then
        match accessToken with
        | some tok => .ok tok
        | none => .error ("EIMS login failed: EIMS login response missing data.accessToken: " ++ text)
      else .error ("EIMS login failed: " ++ jsonErrMsg)
    else .error ("EIMS login failed: EIMS login failed: " ++ toString status ++ " " ++ text)

/-! Certificate store: models/eims_certificate.py. -/

/-- An eims.certificate record. Dates are integer day numbers; a computed
    expiry_date of False is none. -/
structure Certificate where
  id : Nat
  company : Nat
  expiry_date : Option Int
  is_active : Bool
deriving DecidableEq, Repr

/-- The _compute_is_expired field: expiry_date and expiry_date before today. -/
def is_expired (today : Int) (c : Certificate) : Bool :=
  match c.expiry_date with
  | some d => decide (d < today)
  | none => false

/-- The _compute_days_to_expiry field. -/
def days_to_expiry (today : Int) (c : Certificate) : Int :=
  match c.expiry_date with
  | some d => d - today
  | none => 0

/-- The _compute_is_expiring_soon field: expires within 30 days. -/
def is_expiring_soon (today : Int) (c : Certificate) : Bool :=
  match c.expiry_date with
  | some d => decide (0 ≤ d - today) && decide (d - today ≤ 30)
  | none => false

/-- Alert grades used by check_certificate_expiry. -/
inductive AlertKind where
  | critical | warning | info | expired
deriving DecidableEq, Repr

/-- The if/elif grading of check_certificate_expiry for a certificate in the
    expiring window. -/
def gradeAlert (days : Int) : Option AlertKind :=
  if days ≤ 7 then some .critical
  else if days ≤ 15 then some .warning
  else if days ≤ 30 then some .info
  else none

/-- Selection of the first search in check_certificate_expiry:
    active, expiry_date at most today+30 and strictly after today. -/
def inExpiringWindow (today : Int) (c : Certificate) : Bool :=
  c.is_active && (match c.expiry_date with
    | some d => decide (d ≤ today + 30) && decide (today < d)
    | none => false)

/-- Selection of the second search: active with expiry_date strictly before
    today. -/
def isPastExpiry (today : Int) (c : Certificate) : Bool :=
  c.is_active && (match c.expiry_date with
    | some d => decide (d < today)
    | none => false)

/-- check_certificate_expiry: returns the emitted alerts
    (certificate id, grade, days reported) and the updated certificate list
    (expired active certificates deactivated). -/
def check_certificate_expiry (today : Int) (certs : List Certificate) :
    List (Nat × AlertKind × Int) × List Certificate :=
  let expiringAlerts := (certs.filter (inExpiringWindow today)).filterMap
    (fun c => (gradeAlert (days_to_expiry today c)).map
      (fun k => (c.id, k, days_to_expiry today c)))
  let expiredAlerts := (certs.filter (isPastExpiry today)).map
    (fun c => (c.id, AlertKind.expired, (0 : Int)))
  let newCerts := certs.map
    (fun c => if isPastExpiry today c then { c with is_active := false } else c)
  (expiringAlerts ++ expiredAlerts, newCerts)

/-- The _check_active_certificate_per_company constraint, run on the record
    with id rid after a write: passes unless that record is active and another
    active record of the same company exists. -/
def checkActiveConstraint (certs : List Certificate) (rid : Nat) : Bool :=
  match certs.find? (fun c => c.id = rid) with
  | some r =>
      !r.is_active ||
      !(certs.any (fun c => c.id ≠ rid && c.company = r.company && c.is_active))
  | none => true

/-- Error text of the constraint. -/
def conflictMsg : String :=
  "Only one active certificate is allowed per company. Please deactivate the existing certificate first."

/-- Creation of a certificate record; the constraint failing rolls the
    insertion back (ValidationError aborts the transaction). -/
def create_cert (certs : List Certificate) (c : Certificate) :
    Except String (List Certificate) :=
  let certs' := certs ++ [c]
  if checkActiveConstraint certs' c.id then .ok certs' else .error conflictMsg

/-- The record-level effect of writing is_active := b on the record with
    id rid. -/
def updActive (rid : Nat) (b : Bool) (c : Certificate) : Certificate :=
  if c.id = rid then { c with is_active := b } else c

/-- Writing is_active on the record with id rid; the constraint failing rolls
    the write back. -/
def write_active (certs : List Certificate) (rid : Nat) (b : Bool) :
    Except String (List Certificate) :=
  let certs' := certs.map (updActive rid b)
  if checkActiveConstraint certs' rid then .ok certs' else .error conflictMsg

/-- action_activate: write is_active=True. -/
def action_activate (certs : List Certificate) (rid : Nat) :
    Except String (List Certificate) :=
  write_active certs rid true

/-- action_deactivate: write is_active=False. -/
def action_deactivate (certs : List Certificate) (rid : Nat) :
    Except String (List Certificate) :=
  write_active certs rid false

/-- Certificate stores reachable from the empty store through creations and
    is_active writes (an op whose constraint fails leaves the store unchanged).
    Creations use a fresh id. -/
inductive StoreReach : List Certificate → Prop where
  | init : StoreReach []
  | create (certs : List Certificate) (c : Certificate) (h : StoreReach certs)
      (hid : ∀ c' ∈ certs, c'.id ≠ c.id) :
      StoreReach ((create_cert certs c).toOption.getD certs)
  | write (certs : List Certificate) (rid : Nat) (b : Bool) (h : StoreReach certs) :
      StoreReach ((write_active certs rid b).toOption.getD certs)

/-- Number of active certificates of a company in a store. -/
def countActive (certs : List Certificate) (comp : Nat) : Nat :=
  (certs.filter (fun c => c.is_active && c.company = comp)).length

/-! Submission engine: models/account_move.py. -/

/-- Values of the eims_status selection field. -/
inductive EimsStatus where
  | draft | pending | sent | ok | failed
deriving DecidableEq, Repr

/-- EIMS-related columns of an account.move record. An unset Char field is
    the empty string; unset Text/Binary/Datetime fields are none. -/
structure InvoiceState where
  eims_irn : String := ""
  eims_status : EimsStatus := .draft
  eims_error_message : Option String := none
  eims_qr_image : Option String := none
  eims_signed_invoice : Option String := none
  eims_ack_date : Option Nat := none
  eims_last_error : Option String := none
  eims_sent_json : Option String := none
deriving DecidableEq, Repr

/-- One eims.log record as created by send_to_eims. -/
structure LogEntry where
  state : EimsStatus := .draft
  request_json : Option String := none
  response_json : Option String := none
  http_status_code : Option Nat := none
  response_time_ms : Option Nat := none
  error_text : Option String := none
  error_code : Option String := none
  irn : Option String := none
  qr_data : Option String := none
deriving DecidableEq, Repr

/-- Fields of the submission HTTP response that send_to_eims reads.
    jsonOk records whether response.json() parses; jsonErrMsg the message of
    the exception it raises otherwise. message/error/errors are the JSON
    fields _parse_eims_error looks at; irn/qrCode/signedInvoice the body
    fields of a 200 response. -/
structure HttpResponse where
  statusCode : Nat
  text : String
  jsonOk : Bool := true
  jsonErrMsg : String := ""
  message : Option String := none
  error : Option String := none
  errors : List String := []
  irn : Option String := none
  qrCode : Option String := none
  signedInvoice : Option String := none

/-- Python truthiness of an optional string (None and the empty string are
    falsy). -/
def truthy : Option String → Bool
  | some s => !s.isEmpty
  | none => false

/-- The user-facing error string _parse_eims_error derives from a non-200
    response. -/
def parse_eims_error (r : HttpResponse) : String :=
  if r.jsonOk then
    match r.message with
    | some m => m
    | none =>
      match r.error with
      | some e => e
      | none =>
        match r.errors with
        | e :: _ => e
        | [] => "HTTP " ++ toString r.statusCode ++ ": " ++ r.text.take 200
  else "HTTP " ++ toString r.statusCode ++ ": " ++ r.text.take 200

/-- How one invocation of send_to_eims unfolds. Each constructor fixes the
    stage where the pipeline stops and the exception (if any) observed there:
    validationFail is a UserError from _validate_eims_prerequisites (before
    the payload is built); payloadFail a generic exception inside
    _prepare_eims_payload; keyLoadFail the FileNotFoundError turned UserError
    while loading key material; excBeforeSubmit a generic exception from
    eims_login or the signer; timeout and connFail the requests exceptions of
    the submission POST; http a completed HTTP exchange. -/
inductive AttemptEnv where
  | validationFail (msg : String)
  | payloadFail (msg : String)
  | keyLoadFail (msg : String)
  | excBeforeSubmit (msg : String)
  | timeout
  | connFail (msg : String)
  | http (resp : HttpResponse) (respTimeMs : Nat)

/-- Number of HTTP requests issued in an attempt: none before key loading,
    the login call once authentication is reached, and login plus submission
    once the submission POST is issued. -/
def envNetworkCalls : AttemptEnv → Nat
  | .validationFail _ => 0
  | .payloadFail _ => 0
  | .keyLoadFail _ => 0
  | .excBeforeSubmit _ => 1
  | .timeout => 2
  | .connFail _ => 2
  | .http _ _ => 2

/-- Result of one send_to_eims invocation on one invoice: the invoice state
    written, the log entries created (the finally block creates exactly one),
    the message of the UserError propagated to the caller when one is
    re-raised, and the number of HTTP requests issued. -/
structure AttemptResult where
  inv : InvoiceState
  logs : List LogEntry
  raised : Option String
  networkCalls : Nat
deriving Repr

/-- The failure write: eims_status failed, both error fields set. -/
def failWrite (s : InvoiceState) (err : String) : InvoiceState :=
  { s with
    eims_status := .failed
    eims_last_error := some err
    eims_error_message := some err }

/-- send_to_eims on a single invoice. payloadJson is the dumped request
    payload, finalJson the dumped signed envelope, now the timestamp,
    qrRender the QR-image collaborator (none models a failed render, which
    _generate_qr_code turns into False). -/
def send_to_eims (inv : InvoiceState) (payloadJson finalJson : String)
    (env : AttemptEnv) (now : Nat) (qrRender : String → Option String) :
    AttemptResult :=
  let inv1 : InvoiceState :=
    { inv with
      eims_status := .pending
      eims_last_error := none
      eims_error_message := none }
  let log0 : LogEntry := {}
  match env with
  | .validationFail msg =>
      { inv := inv1, logs := [log0], raised := some msg, networkCalls := 0 }
  | .payloadFail msg =>
      let err := "EIMS integration failed: " ++ msg
      let log1 := { log0 with state := EimsStatus.failed, error_text := some err }
      { inv := failWrite inv1 err, logs := [log1], raised := none, networkCalls := 0 }
  | .keyLoadFail msg =>
      let log1 := { log0 with request_json := some payloadJson }
      { inv := inv1, logs := [log1],
        raised := some ("Certificate or key file not found: " ++ msg),
        networkCalls := 0 }
  | .excBeforeSubmit msg =>
      let err := "EIMS integration failed: " ++ msg
      let log1 := { log0 with
        request_json := some payloadJson
        state := EimsStatus.failed
        error_text := some err }
      { inv := failWrite inv1 err, logs := [log1], raised := none, networkCalls := 1 }
  | .timeout =>
      let err := "EIMS request timed out"
      let log1 := { log0 with
        request_json := some payloadJson
        state := EimsStatus.failed
        error_text := some err }
      { inv := failWrite inv1 err, logs := [log1], raised := none, networkCalls := 2 }
  | .connFail msg =>
      let err := "EIMS connection error: " ++ msg
      let log1 := { log0 with
        request_json := some payloadJson
        state := EimsStatus.failed
        error_text := some err }
      { inv := failWrite inv1 err, logs := [log1], raised := none, networkCalls := 2 }
  | .http resp t =>
      let log1 : LogEntry :=
        { log0 with
          request_json := some payloadJson
          response_json := some resp.text
          http_status_code := some resp.statusCode
          response_time_ms := some t }
      if resp.statusCode = 200 then
        if resp.jsonOk then
          let inv2 : InvoiceState :=
            { inv1 with
              eims_status := .ok
              eims_ack_date := some now
              eims_sent_json := some finalJson
              eims_irn := if truthy resp.irn then resp.irn.getD "" else inv1.eims_irn
              eims_qr_image := if truthy resp.qrCode
                then qrRender (resp.qrCode.getD "") else inv1.eims_qr_image
              eims_signed_invoice := if truthy resp.signedInvoice
                then resp.signedInvoice else inv1.eims_signed_invoice }
          let log2 := { log1 with
            state := EimsStatus.ok
            irn := resp.irn
            qr_data := resp.qrCode }
          { inv := inv2, logs := [log2], raised := none, networkCalls := 2 }
        else
          let err := "EIMS integration failed: " ++ resp.jsonErrMsg
          let log2 := { log1 with state := EimsStatus.failed, error_text := some err }
          { inv := failWrite inv1 err, logs := [log2], raised := none, networkCalls := 2 }
      else
        let err := parse_eims_error resp
        let log2 := { log1 with
          state := EimsStatus.failed
          error_text := some err
          error_code := some (toString resp.statusCode) }
        { inv := failWrite inv1 err, logs := [log2], raised := none, networkCalls := 2 }

/-- The attempt outcomes whose failure is handled inside send_to_eims (a
    non-200 response, a 200 response whose body fails to parse, a timeout, a
    connection error, or a generic uncaught exception). The two UserError
    outcomes (validation failure, missing key file) are re-raised instead. -/
def handledFailure : AttemptEnv → Prop
  | .validationFail _ => False
  | .payloadFail _ => True
  | .keyLoadFail _ => False
  | .excBeforeSubmit _ => True
  | .timeout => True
  | .connFail _ => True
  | .http resp _ => resp.statusCode ≠ 200 ∨ resp.jsonOk = false

/-- The EIMS part of action_post for one invoice: trigger only for posted
    customer invoices of Ethiopian companies, skip when an IRN is already set,
    and turn a propagated exception into a failed status without blocking the
    posting. Returns the invoice state, the created log entries and the number
    of HTTP requests issued. -/
def action_post_eims (inv : InvoiceState) (moveType countryCode : String)
    (payloadJson finalJson : String) (env : AttemptEnv) (now : Nat)
    (qrRender : String → Option String) :
    InvoiceState × List LogEntry × Nat :=
  if moveType = "out_invoice" ∧ countryCode = "ET" then
    if inv.eims_irn ≠ "" then (inv, [], 0)
    else
      let r := send_to_eims inv payloadJson finalJson env now qrRender
      match r.raised with
      | some msg => (failWrite r.inv msg, r.logs, r.networkCalls)
      | none => (r.inv, r.logs, r.networkCalls)
  else (inv, [], 0)

/-- Invoice states reachable from a fresh invoice through the module's entry
    points: action_post, and the two retry entry points (the cron
    retry_failed_eims_invoices and action_retry_eims), both of which select
    only failed invoices without an IRN and leave the state where send_to_eims
    put it (exceptions are caught or surfaced without further writes). -/
inductive Reachable : InvoiceState → Prop where
  | init : Reachable {}
  | post (s : InvoiceState) (moveType countryCode payloadJson finalJson : String)
      (env : AttemptEnv) (now : Nat) (qrRender : String → Option String)
      (h : Reachable s) :
      Reachable (action_post_eims s moveType countryCode payloadJson finalJson
        env now qrRender).1
  | retry (s : InvoiceState) (payloadJson finalJson : String) (env : AttemptEnv)
      (now : Nat) (qrRender : String → Option String) (h : Reachable s)
      (hsel : s.eims_status = .failed ∧ s.eims_irn = "") :
      Reachable (send_to_eims s payloadJson finalJson env now qrRender).inv

/-! Canonicalizer lemmas (claim C9). -/

theorem insertKV_perm (p : String × Json) (l : List (String × Json)) :
    (insertKV p l).Perm (p :: l) := by
  induction l with
  | nil => simp [insertKV]
  | cons q qs ih =>
    by_cases h : p.1 ≤ q.1
    · simp [insertKV, h]
    · simp only [insertKV, if_neg h]
      exact (ih.cons q).trans (List.Perm.swap p q qs)

theorem sortKVs_perm (l : List (String × Json)) : (sortKVs l).Perm l := by
  induction l with
  | nil => simp [sortKVs]
  | cons p ps ih => exact (insertKV_perm p (sortKVs ps)).trans (ih.cons p)

theorem insertKV_sorted (p : String × Json) (l : List (String × Json))
    (h : l.Sorted (fun a b => a.1 ≤ b.1)) :
    (insertKV p l).Sorted (fun a b => a.1 ≤ b.1) := by
  induction l with
  | nil => simp [insertKV]
  | cons q qs ih =>
    rcases List.sorted_cons.mp h with ⟨hq, hqs⟩
    by_cases hle : p.1 ≤ q.1
    · simp only [insertKV, if_pos hle]
      refine List.sorted_cons.mpr ⟨?_, h⟩
      intro b hb
      rcases List.mem_cons.mp hb with rfl | hb
      · exact hle
      · exact le_trans hle (hq b hb)
    · simp only [insertKV, if_neg hle]
      refine List.sorted_cons.mpr ⟨?_, ih hqs⟩
      intro b hb
      rcases List.mem_cons.mp ((insertKV_perm p qs).mem_iff.mp hb) with rfl | hb
      · exact le_of_not_le hle
      · exact hq b hb

theorem sortKVs_sorted (l : List (String × Json)) :
    (sortKVs l).Sorted (fun a b => a.1 ≤ b.1) := by
  induction l with
  | nil => simp [sortKVs]
  | cons p ps ih => exact insertKV_sorted p (sortKVs ps) ih

theorem sorted_strict_of_nodup (l : List (String × Json))
    (hs : l.Sorted (fun a b => a.1 ≤ b.1)) (hnd : (l.map Prod.fst).Nodup) :
    l.Sorted (fun a b => a.1 < b.1) := by
  have hne : l.Pairwise (fun a b => a.1 ≠ b.1) := List.pairwise_map.mp hnd
  exact (hs.and hne).imp (fun h => lt_of_le_of_ne h.1 h.2)

theorem sortKVs_eq_of_perm (l₁ l₂ : List (String × Json)) (hp : l₁.Perm l₂)
    (hnd : (l₁.map Prod.fst).Nodup) : sortKVs l₁ = sortKVs l₂ := by
  have hperm : (sortKVs l₁).Perm (sortKVs l₂) :=
    (sortKVs_perm l₁).trans (hp.trans (sortKVs_perm l₂).symm)
  have hnd₁ : ((sortKVs l₁).map Prod.fst).Nodup :=
    (((sortKVs_perm l₁).map Prod.fst).nodup_iff).mpr hnd
  have hnd₂ : ((sortKVs l₂).map Prod.fst).Nodup :=
    ((hperm.map Prod.fst).nodup_iff).mp hnd₁
  exact List.eq_of_perm_of_sorted hperm
    (sorted_strict_of_nodup _ (sortKVs_sorted l₁) hnd₁)
    (sorted_strict_of_nodup _ (sortKVs_sorted l₂) hnd₂)

theorem sortJsonList_eq (xs : List Json) : sortJsonList xs = xs.map sortJson := by
  induction xs with
  | nil => simp [sortJsonList]
  | cons x xs ih => simp [sortJsonList, ih]

theorem sortJsonObj_eq (kvs : List (String × Json)) :
    sortJsonObj kvs = kvs.map (fun p => (p.1, sortJson p.2)) := by
  induction kvs with
  | nil => simp [sortJsonObj]
  | cons p ps ih =>
    cases p
    simp [sortJsonObj, ih]

theorem sortJson_obj_perm (kvs₁ kvs₂ : List (String × Json)) (hp : kvs₁.Perm kvs₂)
    (hnd : (kvs₁.map Prod.fst).Nodup) :
    sortJson (.obj kvs₁) = sortJson (.obj kvs₂) := by
  simp only [sortJson, sortJsonObj_eq]
  congr 1
  apply sortKVs_eq_of_perm
  · exact hp.map _
  · simpa using hnd

theorem json_induct (P : Json → Prop)
    (hnull : P .null) (hbool : ∀ b, P (.bool b)) (hnum : ∀ n, P (.num n))
    (hstr : ∀ s, P (.str s))
    (harr : ∀ xs, (∀ x ∈ xs, P x) → P (.arr xs))
    (hobj : ∀ kvs, (∀ p ∈ kvs, P p.2) → P (.obj kvs)) :
    ∀ v, P v := by
  have key : ∀ n (v : Json), sizeOf v ≤ n → P v := by
    intro n
    induction n with
    | zero =>
      intro v hv
      exfalso
      cases v <;> simp at hv
    | succ n ih =>
      intro v _hv
      cases v with
      | null => exact hnull
      | bool b => exact hbool b
      | num m => exact hnum m
      | str s => exact hstr s
      | arr xs =>
        refine harr xs (fun x hx => ih x ?_)
        have h1 := List.sizeOf_lt_of_mem hx
        have h2 : sizeOf (Json.arr xs) = 1 + sizeOf xs := by simp
        omega
      | obj kvs =>
        refine hobj kvs (fun p hp => ih p.2 ?_)
        have h1 := List.sizeOf_lt_of_mem hp
        have h2 : sizeOf (Json.obj kvs) = 1 + sizeOf kvs := by simp
        have h3 : sizeOf p = 1 + sizeOf p.1 + sizeOf p.2 := by
          cases p; simp
        omega
  exact fun v => key (sizeOf v) v le_rfl

theorem strSortedB_of_sorted (l : List String) (h : l.Sorted (· ≤ ·)) :
    strSortedB l = true := by
  induction l with
  | nil => rfl
  | cons a rest ih =>
    cases rest with
    | nil => rfl
    | cons b rest2 =>
      rcases List.sorted_cons.mp h with ⟨ha, hrest⟩
      simp only [strSortedB, Bool.and_eq_true, decide_eq_true_eq]
      exact ⟨ha b (by simp), ih hrest⟩

theorem keysSortedList_iff (xs : List Json) :
    keysSortedList xs = true ↔ ∀ x ∈ xs, keysSorted x = true := by
  induction xs with
  | nil => simp [keysSortedList]
  | cons x xs ih => simp [keysSortedList, ih]

theorem keysSortedObj_iff (kvs : List (String × Json)) :
    keysSortedObj kvs = true ↔ ∀ p ∈ kvs, keysSorted p.2 = true := by
  induction kvs with
  | nil => simp [keysSortedObj]
  | cons p ps ih =>
    cases p
    simp [keysSortedObj, ih]

theorem keysSorted_sortJson (v : Json) : keysSorted (sortJson v) = true := by
  induction v using json_induct with
  | hnull => rfl
  | hbool b => rfl
  | hnum n => rfl
  | hstr s => rfl
  | harr xs ih =>
    simp only [sortJson, keysSorted, sortJsonList_eq]
    rw [keysSortedList_iff]
    intro y hy
    rcases List.mem_map.mp hy with ⟨x, hx, rfl⟩
    exact ih x hx
  | hobj kvs ih =>
    simp only [sortJson, keysSorted, Bool.and_eq_true]
    constructor
    · apply strSortedB_of_sorted
      exact List.pairwise_map.mpr (sortKVs_sorted _)
    · rw [keysSortedObj_iff]
      intro p hp
      have hp' : p ∈ sortJsonObj kvs := (sortKVs_perm _).mem_iff.mp hp
      rw [sortJsonObj_eq] at hp'
      rcases List.mem_map.mp hp' with ⟨q, hq, rfl⟩
      exact ih q hq

theorem hexDigit_not_ws (d : Nat) : (hexDigit d).isWhitespace = false := by
  unfold hexDigit
  split <;> decide

theorem digitChar_not_ws (d : Nat) : (digitChar d).isWhitespace = false := by
  unfold digitChar
  split <;> decide

theorem uEscape4_not_ws (n : Nat) (c : Char) (hc : c ∈ uEscape4 n) :
    c.isWhitespace = false := by
  simp only [uEscape4, List.mem_cons, List.not_mem_nil, or_false] at hc
  rcases hc with rfl | rfl | rfl | rfl | rfl | rfl <;>
    first | decide | apply hexDigit_not_ws

theorem printable_not_ws (c : Char) (h1 : ¬ c.toNat < 32) (hc : ¬ c = ' ') :
    c.isWhitespace = false := by
  have ht : ¬ c = '\t' := by intro h; subst h; exact h1 (by decide)
  have hr : ¬ c = '\r' := by intro h; subst h; exact h1 (by decide)
  have hn : ¬ c = '\n' := by intro h; subst h; exact h1 (by decide)
  simp [Char.isWhitespace, hc, ht, hr, hn]

theorem escapeChar_not_ws (a : Char) (ha : ¬ a = ' ') (c : Char)
    (hc : c ∈ escapeChar a) : c.isWhitespace = false := by
  unfold escapeChar at hc
  by_cases h1 : a = '"'
  · rw [if_pos h1] at hc
    have hd : c = '\\' ∨ c = '"' := by simpa using hc
    rcases hd with rfl | rfl <;> decide
  rw [if_neg h1] at hc
  by_cases h2 : a = '\\'
  · rw [if_pos h2] at hc
    have hd : c = '\\' := by simpa using hc
    subst hd; decide
  rw [if_neg h2] at hc
  by_cases h3 : a = '\x08'
  · rw [if_pos h3] at hc
    have hd : c = '\\' ∨ c = 'b' := by simpa using hc
    rcases hd with rfl | rfl <;> decide
  rw [if_neg h3] at hc
  by_cases h4 : a = '\t'
  · rw [if_pos h4] at hc
    have hd : c = '\\' ∨ c = 't' := by simpa using hc
    rcases hd with rfl | rfl <;> decide
  rw [if_neg h4] at hc
  by_cases h5 : a = '\n'
  · rw [if_pos h5] at hc
    have hd : c = '\\' ∨ c = 'n' := by simpa using hc
    rcases hd with rfl | rfl <;> decide
  rw [if_neg h5] at hc
  by_cases h6 : a = '\x0c'
  · rw [if_pos h6] at hc
    have hd : c = '\\' ∨ c = 'f' := by simpa using hc
    rcases hd with rfl | rfl <;> decide
  rw [if_neg h6] at hc
  by_cases h7 : a = '\r'
  · rw [if_pos h7] at hc
    have hd : c = '\\' ∨ c = 'r' := by simpa using hc
    rcases hd with rfl | rfl <;> decide
  rw [if_neg h7] at hc
  by_cases h8 : a.toNat < 32
  · rw [if_pos h8] at hc
    exact uEscape4_not_ws _ c hc
  rw [if_neg h8] at hc
  by_cases h9 : a.toNat ≤ 126
  · rw [if_pos h9] at hc
    have hd : c = a := by simpa using hc
    subst hd
    exact printable_not_ws c h8 ha
  rw [if_neg h9] at hc
  by_cases h10 : a.toNat ≤ 65535
  · rw [if_pos h10] at hc
    exact uEscape4_not_ws _ c hc
  rw [if_neg h10] at hc
  rcases List.mem_append.mp hc with hc | hc
  · exact uEscape4_not_ws _ c hc
  · exact uEscape4_not_ws _ c hc

theorem natChars_not_ws (n : Nat) : ∀ c ∈ natChars n, c.isWhitespace = false := by
  induction n using Nat.strong_induction_on with
  | _ n ih =>
    intro c hc
    unfold natChars at hc
    by_cases h : n < 10
    · simp only [dif_pos h, List.mem_cons, List.not_mem_nil, or_false] at hc
      subst hc
      exact digitChar_not_ws n
    · simp only [dif_neg h, List.mem_append, List.mem_cons, List.not_mem_nil,
        or_false] at hc
      rcases hc with hc | rfl
      · exact ih (n / 10) (Nat.div_lt_self (by omega) (by omega)) c hc
      · exact digitChar_not_ws _

theorem intChars_not_ws (n : Int) : ∀ c ∈ intChars n, c.isWhitespace = false := by
  intro c hc
  unfold intChars at hc
  by_cases h : n < 0
  · simp only [if_pos h, List.mem_cons] at hc
    rcases hc with rfl | hc
    · decide
    · exact natChars_not_ws _ c hc
  · simp only [if_neg h] at hc
    exact natChars_not_ws _ c hc

theorem serStr_not_ws (s : String) (hs : s.data.all (fun c => !(c = ' ')) = true) :
    ∀ c ∈ serStr s, c.isWhitespace = false := by
  intro c hc
  rw [serStr] at hc
  rcases List.mem_cons.mp hc with rfl | hc
  · decide
  rcases List.mem_append.mp hc with hc | hc
  · rcases List.mem_flatMap.mp hc with ⟨a, haz, hca⟩
    have ha : ¬ a = ' ' := by
      have := List.all_eq_true.mp hs a haz
      simpa using this
    exact escapeChar_not_ws a ha c hca
  · have hd : c = '"' := by simpa using hc
    subst hd
    decide

theorem mem_serListRest (c : Char) (xs : List Json) (hc : c ∈ serListRest xs) :
    c = ',' ∨ ∃ x ∈ xs, c ∈ serVal x := by
  induction xs with
  | nil => simp [serListRest] at hc
  | cons x xs ih =>
    rw [serListRest] at hc
    rcases List.mem_cons.mp hc with rfl | hc
    · exact Or.inl rfl
    rcases List.mem_append.mp hc with hc | hc
    · exact Or.inr ⟨x, by simp, hc⟩
    rcases ih hc with h | ⟨y, hy, hcy⟩
    · exact Or.inl h
    · exact Or.inr ⟨y, by simp [hy], hcy⟩

theorem mem_serList (c : Char) (xs : List Json) (hc : c ∈ serList xs) :
    c = ',' ∨ ∃ x ∈ xs, c ∈ serVal x := by
  cases xs with
  | nil => simp [serList] at hc
  | cons x xs =>
    rw [serList] at hc
    rcases List.mem_append.mp hc with hc | hc
    · exact Or.inr ⟨x, by simp, hc⟩
    rcases mem_serListRest c xs hc with h | ⟨y, hy, hcy⟩
    · exact Or.inl h
    · exact Or.inr ⟨y, by simp [hy], hcy⟩

theorem mem_serObjRest (c : Char) (kvs : List (String × Json))
    (hc : c ∈ serObjRest kvs) :
    c = ',' ∨ c = ':' ∨ ∃ p ∈ kvs, c ∈ serStr p.1 ∨ c ∈ serVal p.2 := by
  induction kvs with
  | nil => simp [serObjRest] at hc
  | cons p ps ih =>
    obtain ⟨k, v⟩ := p
    rw [serObjRest, List.append_assoc] at hc
    rcases List.mem_cons.mp hc with rfl | hc
    · exact Or.inl rfl
    rcases List.mem_append.mp hc with hc | hc
    · exact Or.inr (Or.inr ⟨(k, v), by simp, Or.inl hc⟩)
    rcases List.mem_cons.mp hc with rfl | hc
    · exact Or.inr (Or.inl rfl)
    rcases List.mem_append.mp hc with hc | hc
    · exact Or.inr (Or.inr ⟨(k, v), by simp, Or.inr hc⟩)
    rcases ih hc with h | h | ⟨q, hq, hcq⟩
    · exact Or.inl h
    · exact Or.inr (Or.inl h)
    · exact Or.inr (Or.inr ⟨q, by simp [hq], hcq⟩)

theorem mem_serObj (c : Char) (kvs : List (String × Json)) (hc : c ∈ serObj kvs) :
    c = ',' ∨ c = ':' ∨ ∃ p ∈ kvs, c ∈ serStr p.1 ∨ c ∈ serVal p.2 := by
  cases kvs with
  | nil => simp [serObj] at hc
  | cons p ps =>
    obtain ⟨k, v⟩ := p
    rw [serObj, List.append_assoc] at hc
    rcases List.mem_append.mp hc with hc | hc
    · exact Or.inr (Or.inr ⟨(k, v), by simp, Or.inl hc⟩)
    rcases List.mem_cons.mp hc with rfl | hc
    · exact Or.inr (Or.inl rfl)
    rcases List.mem_append.mp hc with hc | hc
    · exact Or.inr (Or.inr ⟨(k, v), by simp, Or.inr hc⟩)
    rcases mem_serObjRest c ps hc with h | h | ⟨q, hq, hcq⟩
    · exact Or.inl h
    · exact Or.inr (Or.inl h)
    · exact Or.inr (Or.inr ⟨q, by simp [hq], hcq⟩)

theorem spaceFreeList_iff (xs : List Json) :
    spaceFreeList xs = true ↔ ∀ x ∈ xs, spaceFree x = true := by
  induction xs with
  | nil => simp [spaceFreeList]
  | cons x xs ih => simp [spaceFreeList, ih]

theorem spaceFreeObj_iff (kvs : List (String × Json)) :
    spaceFreeObj kvs = true ↔
      ∀ p ∈ kvs, p.1.data.all (fun c => !(c = ' ')) = true ∧ spaceFree p.2 = true := by
  induction kvs with
  | nil => simp [spaceFreeObj]
  | cons p ps ih =>
    obtain ⟨k, v⟩ := p
    simp [spaceFreeObj, ih, and_assoc]

theorem spaceFree_sortJson (v : Json) (hv : spaceFree v = true) :
    spaceFree (sortJson v) = true := by
  induction v using json_induct with
  | hnull => rfl
  | hbool b => rfl
  | hnum n => rfl
  | hstr s => exact hv
  | harr xs ih =>
    simp only [sortJson, spaceFree, sortJsonList_eq] at *
    rw [spaceFreeList_iff] at *
    intro y hy
    rcases List.mem_map.mp hy with ⟨x, hx, rfl⟩
    exact ih x hx (hv x hx)
  | hobj kvs ih =>
    simp only [sortJson, spaceFree] at *
    rw [spaceFreeObj_iff] at *
    intro p hp
    have hp' : p ∈ sortJsonObj kvs := (sortKVs_perm _).mem_iff.mp hp
    rw [sortJsonObj_eq] at hp'
    rcases List.mem_map.mp hp' with ⟨q, hq, rfl⟩
    exact ⟨(hv q hq).1, ih q hq (hv q hq).2⟩

theorem serVal_not_ws (v : Json) (hv : spaceFree v = true) :
    ∀ c ∈ serVal v, c.isWhitespace = false := by
  induction v using json_induct with
  | hnull =>
    intro c hc
    have he : serVal Json.null = ['n', 'u', 'l', 'l'] := rfl
    rw [he] at hc
    have hd : c = 'n' ∨ c = 'u' ∨ c = 'l' := by simpa using hc
    rcases hd with rfl | rfl | rfl <;> decide
  | hbool b =>
    intro c hc
    cases b
    · have he : serVal (Json.bool false) = ['f', 'a', 'l', 's', 'e'] := rfl
      rw [he] at hc
      have hd : c = 'f' ∨ c = 'a' ∨ c = 'l' ∨ c = 's' ∨ c = 'e' := by simpa using hc
      rcases hd with rfl | rfl | rfl | rfl | rfl <;> decide
    · have he : serVal (Json.bool true) = ['t', 'r', 'u', 'e'] := rfl
      rw [he] at hc
      have hd : c = 't' ∨ c = 'r' ∨ c = 'u' ∨ c = 'e' := by simpa using hc
      rcases hd with rfl | rfl | rfl | rfl <;> decide
  | hnum n =>
    intro c hc
    rw [serVal] at hc
    exact intChars_not_ws n c hc
  | hstr s =>
    intro c hc
    rw [serVal] at hc
    exact serStr_not_ws s (by simpa [spaceFree] using hv) c hc
  | harr xs ih =>
    intro c hc
    rw [serVal] at hc
    rcases List.mem_cons.mp hc with rfl | hc
    · decide
    rcases List.mem_append.mp hc with hc | hc
    · rcases mem_serList c xs hc with rfl | ⟨x, hx, hcx⟩
      · decide
      · have hx' : spaceFree x = true := by
          rw [spaceFree] at hv
          exact (spaceFreeList_iff xs).mp hv x hx
        exact ih x hx hx' c hcx
    · have hd : c = ']' := by simpa using hc
      subst hd; decide
  | hobj kvs ih =>
    intro c hc
    rw [serVal] at hc
    rcases List.mem_cons.mp hc with rfl | hc
    · decide
    rcases List.mem_append.mp hc with hc | hc
    · have hkv := (spaceFreeObj_iff kvs).mp (by rw [spaceFree] at hv; exact hv)
      rcases mem_serObj c kvs hc with rfl | rfl | ⟨p, hp, hcp⟩
      · decide
      · decide
      rcases hcp with hcp | hcp
      · exact serStr_not_ws p.1 (hkv p hp).1 c hcp
      · exact ih p hp (hkv p hp).2 c hcp
    · have hd : c = '\x7d' := by simpa using hc
      subst hd; decide

/-- Claim C9: canonicalize_json is deterministic — two mappings with identical
    key/value content but different insertion order give identical output —
    has keys sorted at every nesting level, is the UTF-8 encoding of the
    canonical string, and contains no whitespace beyond the spaces the data's
    own strings carry. -/
theorem C9_canonicalize_deterministic_sorted_minimal_utf8
    (v : Json) (kvs₁ kvs₂ : List (String × Json)) :
    (kvs₁.Perm kvs₂ → (kvs₁.map Prod.fst).Nodup →
        canonicalize_json (.obj kvs₁) = canonicalize_json (.obj kvs₂))
    ∧ keysSorted (sortJson v) = true
    ∧ canonicalize_json v = utf8Encode (canonicalString v).data
    ∧ (spaceFree v = true →
        ∀ c ∈ (canonicalString v).data, c.isWhitespace = false) := by
  refine ⟨?_, keysSorted_sortJson v, rfl, ?_⟩
  · intro hp hnd
    unfold canonicalize_json
    rw [sortJson_obj_perm kvs₁ kvs₂ hp hnd]
  · intro hv c hc
    have hc' : c ∈ serVal (sortJson v) := by simpa [canonicalString] using hc
    exact serVal_not_ws (sortJson v) (spaceFree_sortJson v hv) c hc'

/-- Witness for C9 at concrete inputs: a two-key mapping given in the two
    insertion orders canonicalizes to the same bytes, and a space-free value
    serializes without any whitespace. -/
theorem C9_canonicalize_witness :
    ([(("b" : String), Json.num 1), ("a", Json.null)]).Perm
        [(("a" : String), Json.null), ("b", Json.num 1)]
    ∧ (([(("b" : String), Json.num 1), ("a", Json.null)]).map Prod.fst).Nodup
    ∧ spaceFree (Json.obj [("b", Json.str "xy"), ("a", Json.num 3)]) = true
    ∧ canonicalize_json (Json.obj [("b", Json.num 1), ("a", Json.null)])
        = canonicalize_json (Json.obj [("a", Json.null), ("b", Json.num 1)])
    ∧ (canonicalString (Json.obj [("b", Json.str "xy"), ("a", Json.num 3)])).data.all
        (fun c => !c.isWhitespace) = true := by
  have hperm : ([(("b" : String), Json.num 1), ("a", Json.null)]).Perm
      [(("a" : String), Json.null), ("b", Json.num 1)] :=
    List.Perm.swap ("a", Json.null) ("b", Json.num 1) []
  have hnd : (([(("b" : String), Json.num 1), ("a", Json.null)]).map Prod.fst).Nodup := by
    simp
  have hsf : spaceFree (Json.obj [("b", Json.str "xy"), ("a", Json.num 3)]) = true := by
    decide
  refine ⟨hperm, hnd, hsf,
    (C9_canonicalize_deterministic_sorted_minimal_utf8 Json.null _ _).1 hperm hnd, ?_⟩
  apply List.all_eq_true.mpr
  intro c hc
  have := (C9_canonicalize_deterministic_sorted_minimal_utf8
    (Json.obj [("b", Json.str "xy"), ("a", Json.num 3)]) [] []).2.2.2 hsf c hc
  simp [this]

/-- Claim C4 (code evaluation): the body eims_login hands to requests.post is
    the bare request object, not the assembled envelope with signature and
    certificate. -/
theorem C4_login_sends_bare_request_not_envelope :
    login_sent_body ⟨"cid", "sec", "key", "tin"⟩ "SIG" "CERT"
        = login_request_json ⟨"cid", "sec", "key", "tin"⟩
    ∧ login_sent_body ⟨"cid", "sec", "key", "tin"⟩ "SIG" "CERT"
        ≠ login_full_payload ⟨"cid", "sec", "key", "tin"⟩ "SIG" "CERT" := by
  refine ⟨rfl, ?_⟩
  intro h
  simp [login_sent_body, login_full_payload, login_request_json] at h

/-- Claim C6 (amended): eims_login succeeds exactly on a 200 response whose
    parsed body carries data.accessToken; timeouts, connection failures,
    non-200 statuses and missing tokens all raise; the non-200 message carries
    the status code and the whole raw body, with no truncation. -/
theorem C6_login_failure_conditions (t : LoginTransport) (ts : Nat) :
    ((∃ tok, eims_login_result t ts = .ok tok) ↔
      ∃ text jerr tok, t = .resp 200 text true jerr (some tok))
    ∧ (∀ status text jsonOk jerr atk, t = .resp status text jsonOk jerr atk →
        status ≠ 200 →
        eims_login_result t ts =
          .error ("EIMS login failed: EIMS login failed: "
            ++ toString status ++ " " ++ text)) := by
  constructor
  · constructor
    · rintro ⟨tok, htok⟩
      cases t with
      | timeout => simp [eims_login_result] at htok
      | connFail m => simp [eims_login_result] at htok
      | resp status text jsonOk jerr atk =>
        by_cases h200 : status = 200
        · subst h200
          cases jsonOk with
          | false => simp [eims_login_result] at htok
          | true =>
            cases atk with
            | none => simp [eims_login_result] at htok
            | some a => exact ⟨text, jerr, a, rfl⟩
        · simp [eims_login_result, h200] at htok
    · rintro ⟨text, jerr, tok, rfl⟩
      exact ⟨tok, by simp [eims_login_result]⟩
  · rintro status text jsonOk jerr atk rfl h200
    simp [eims_login_result, h200]

set_option maxRecDepth 4000 in
/-- Counterexample to C6 as stated: for a 500 response with a 500-character
    body, the raised message embeds the entire body — nothing bounds its
    length. -/
theorem C6_login_no_truncation_counterexample :
    eims_login_result
        (.resp 500 (String.mk (List.replicate 500 'a')) true "" none) 30
      = .error ("EIMS login failed: EIMS login failed: 500 "
          ++ String.mk (List.replicate 500 'a'))
    ∧ (String.mk (List.replicate 500 'a')).length = 500 := by
  constructor
  · rfl
  · simp [String.length]

/-- Witness for C6 at a concrete transport: a 200 response with a token
    succeeds, and a 404 fails with the full body in the message. -/
theorem C6_login_witness :
    (∃ tok, eims_login_result (.resp 200 "body" true "" (some "TOK")) 30 = .ok tok)
    ∧ eims_login_result (.resp 404 "missing" true "" none) 30
        = .error ("EIMS login failed: EIMS login failed: 404 missing") := by
  constructor
  · exact (C6_login_failure_conditions (.resp 200 "body" true "" (some "TOK")) 30).1.mpr
      ⟨"body", "", "TOK", rfl⟩
  · have := (C6_login_failure_conditions (.resp 404 "missing" true "" none) 30).2
      404 "missing" true "" none rfl (by decide)
    simpa using this

/-- Counterexample to C1 as stated: send_to_eims itself never looks at
    eims_irn — on an invoice already carrying IRN123 it still issues the two
    HTTP requests of an attempt and rewrites the submission state. -/
theorem C1_send_ignores_irn_counterexample :
    (send_to_eims ⟨"IRN123", .ok, none, none, none, none, none, none⟩
        "p" "f" .timeout 5 (fun _ => none)).networkCalls = 2
    ∧ (send_to_eims ⟨"IRN123", .ok, none, none, none, none, none, none⟩
        "p" "f" .timeout 5 (fun _ => none)).inv.eims_status = .failed
    ∧ (InvoiceState.mk "IRN123" .ok none none none none none none).eims_irn ≠ ""
    ∧ (InvoiceState.mk "IRN123" .ok none none none none none none).eims_status
        ≠ .failed := by
  refine ⟨rfl, rfl, by decide, by decide⟩

/-- Claim C1 (amended): the idempotency guard lives in the caller — for an
    invoice whose eims_irn is non-empty, action_post issues no HTTP request,
    creates no log entry and leaves the invoice state unchanged. -/
theorem C1_action_post_skips_registered (inv : InvoiceState)
    (moveType countryCode payloadJson finalJson : String) (env : AttemptEnv)
    (now : Nat) (qrRender : String → Option String)
    (h : inv.eims_irn ≠ "") :
    action_post_eims inv moveType countryCode payloadJson finalJson env now
      qrRender = (inv, [], 0) := by
  unfold action_post_eims
  by_cases hmc : moveType = "out_invoice" ∧ countryCode = "ET"
  · simp [hmc, h]
  · simp [hmc]

/-- Witness for C1 at a concrete registered invoice: posting again is a
    complete no-op. -/
theorem C1_action_post_skips_witness :
    action_post_eims ⟨"IRN123", .ok, none, none, none, none, none, none⟩
        "out_invoice" "ET" "p" "f" .timeout 5 (fun _ => none)
      = (⟨"IRN123", .ok, none, none, none, none, none, none⟩, [], 0) :=
  C1_action_post_skips_registered _ "out_invoice" "ET" "p" "f" .timeout 5
    (fun _ => none) (by decide)

/-- Counterexample to C3 as stated: on a validation failure the single log
    entry send_to_eims creates still has its initial state draft — not failed
    as claimed — with no HTTP fields. -/
theorem C3_validation_log_draft_counterexample :
    (send_to_eims {} "p" "f" (.validationFail "no active certificate") 5
        (fun _ => none)).logs = [{}]
    ∧ (LogEntry.mk .draft none none none none none none none none).state
        ≠ EimsStatus.failed := by
  refine ⟨rfl, by decide⟩

/-- Claim C3 (amended): every invocation of send_to_eims creates exactly one
    log entry, and when prerequisite validation short-circuits the attempt the
    log keeps its initial draft state and carries no HTTP fields
    (no status code, no response body, no latency) and no request payload. -/
theorem C3_always_one_log (inv : InvoiceState) (payloadJson finalJson : String)
    (env : AttemptEnv) (now : Nat) (qrRender : String → Option String) :
    (send_to_eims inv payloadJson finalJson env now qrRender).logs.length = 1
    ∧ (∀ msg, env = .validationFail msg →
        (send_to_eims inv payloadJson finalJson env now qrRender).logs = [{}]) := by
  constructor
  · cases env with
    | validationFail msg => rfl
    | payloadFail msg => rfl
    | keyLoadFail msg => rfl
    | excBeforeSubmit msg => rfl
    | timeout => rfl
    | connFail msg => rfl
    | http resp t =>
      by_cases h1 : resp.statusCode = 200 <;> by_cases h2 : resp.jsonOk = true <;>
        simp [send_to_eims, h1, h2]
  · rintro msg rfl
    rfl

/-- Witness for C3 at a concrete validation failure: one log entry, in draft
    state with every HTTP field empty. -/
theorem C3_always_one_log_witness :
    (send_to_eims {} "p" "f" (.validationFail "Company VAT/TIN is required") 5
        (fun _ => none)).logs.length = 1
    ∧ (send_to_eims {} "p" "f" (.validationFail "Company VAT/TIN is required") 5
        (fun _ => none)).logs = [{}] :=
  ⟨(C3_always_one_log {} "p" "f" (.validationFail "Company VAT/TIN is required")
      5 (fun _ => none)).1,
   (C3_always_one_log {} "p" "f" (.validationFail "Company VAT/TIN is required")
      5 (fun _ => none)).2 _ rfl⟩

/-- Claim C7: on a non-200 submission response the invoice is failed with the
    derived error recorded in both error fields, and _parse_eims_error picks,
    in priority order, the JSON message field, then error, then the first
    element of errors, then the fallback of HTTP code plus body truncated to
    200 characters. -/
theorem C7_non200_error_priority (inv : InvoiceState)
    (payloadJson finalJson : String) (resp : HttpResponse) (t now : Nat)
    (qrRender : String → Option String) (h : resp.statusCode ≠ 200) :
    (send_to_eims inv payloadJson finalJson (.http resp t) now qrRender).inv.eims_status
        = .failed
    ∧ (send_to_eims inv payloadJson finalJson (.http resp t) now
        qrRender).inv.eims_last_error = some (parse_eims_error resp)
    ∧ (send_to_eims inv payloadJson finalJson (.http resp t) now
        qrRender).inv.eims_error_message = some (parse_eims_error resp)
    ∧ (∀ m, resp.jsonOk = true → resp.message = some m → parse_eims_error resp = m)
    ∧ (∀ e, resp.jsonOk = true → resp.message = none → resp.error = some e →
        parse_eims_error resp = e)
    ∧ (∀ e rest, resp.jsonOk = true → resp.message = none → resp.error = none →
        resp.errors = e :: rest → parse_eims_error resp = e)
    ∧ ((resp.jsonOk = false ∨
          (resp.message = none ∧ resp.error = none ∧ resp.errors = [])) →
        parse_eims_error resp =
          "HTTP " ++ toString resp.statusCode ++ ": " ++ resp.text.take 200) := by
  refine ⟨?_, ?_, ?_, ?_, ?_, ?_, ?_⟩
  · simp [send_to_eims, h, failWrite]
  · simp [send_to_eims, h, failWrite]
  · simp [send_to_eims, h, failWrite]
  · intro m hjson hmsg
    simp [parse_eims_error, hjson, hmsg]
  · intro e hjson hmsg herr
    simp [parse_eims_error, hjson, hmsg, herr]
  · intro e rest hjson hmsg herr herrs
    simp [parse_eims_error, hjson, hmsg, herr, herrs]
  · rintro (hjson | ⟨hmsg, herr, herrs⟩)
    · simp [parse_eims_error, hjson]
    · by_cases hjson : resp.jsonOk = true
      · simp [parse_eims_error, hjson, hmsg, herr, herrs]
      · simp [parse_eims_error, hjson]

/-- Witness for C7: the spec's scenario B — HTTP 500 with a message field —
    ends failed with that message recorded. -/
theorem C7_non200_witness :
    (send_to_eims {} "p" "f"
        (.http { statusCode := 500, text := "tb", message := some "seller tin invalid" } 7)
        5 (fun _ => none)).inv.eims_status = .failed
    ∧ parse_eims_error
        { statusCode := 500, text := "tb", message := some "seller tin invalid" }
      = "seller tin invalid" :=
  ⟨(C7_non200_error_priority {} "p" "f"
      { statusCode := 500, text := "tb", message := some "seller tin invalid" }
      7 5 (fun _ => none) (by decide)).1,
   (C7_non200_error_priority {} "p" "f"
      { statusCode := 500, text := "tb", message := some "seller tin invalid" }
      7 5 (fun _ => none) (by decide)).2.2.2.1 "seller tin invalid" rfl rfl⟩

/-- Claim C10: every failure handled inside send_to_eims writes only the
    status and the two error fields — the reference number, QR image, signed
    document, acknowledgment date and sent payload are left unchanged. -/
theorem C10_failure_frame (inv : InvoiceState) (payloadJson finalJson : String)
    (env : AttemptEnv) (now : Nat) (qrRender : String → Option String)
    (h : handledFailure env) :
    ∃ err, (send_to_eims inv payloadJson finalJson env now qrRender).inv
      = { inv with
          eims_status := .failed
          eims_last_error := some err
          eims_error_message := some err } := by
  cases env with
  | validationFail msg => exact absurd h (by simp [handledFailure])
  | keyLoadFail msg => exact absurd h (by simp [handledFailure])
  | payloadFail msg => exact ⟨_, rfl⟩
  | excBeforeSubmit msg => exact ⟨_, rfl⟩
  | timeout => exact ⟨_, rfl⟩
  | connFail msg => exact ⟨_, rfl⟩
  | http resp t =>
    rcases h with h | h
    · refine ⟨parse_eims_error resp, ?_⟩
      simp [send_to_eims, h, failWrite]
    · by_cases h1 : resp.statusCode = 200
      · refine ⟨"EIMS integration failed: " ++ resp.jsonErrMsg, ?_⟩
        simp [send_to_eims, h1, h, failWrite]
      · refine ⟨parse_eims_error resp, ?_⟩
        simp [send_to_eims, h1, failWrite]

/-- Witness for C10: a timeout after a successful earlier submission keeps the
    previously obtained IRN and QR image. -/
theorem C10_failure_frame_witness :
    ∃ err,
      (send_to_eims ⟨"IRN9", .ok, none, some "QR", some "SGN", some 3, none, some "J"⟩
          "p" "f" .timeout 5 (fun _ => none)).inv
        = { InvoiceState.mk "IRN9" .ok none (some "QR") (some "SGN") (some 3)
              none (some "J") with
            eims_status := .failed
            eims_last_error := some err
            eims_error_message := some err } :=
  C10_failure_frame ⟨"IRN9", .ok, none, some "QR", some "SGN", some 3, none, some "J"⟩
    "p" "f" .timeout 5 (fun _ => none) trivial

theorem send_to_eims_preserves_invariant (s : InvoiceState)
    (pj fj : String) (env : AttemptEnv) (now : Nat)
    (qr : String → Option String) (h : s.eims_irn = "") :
    ((send_to_eims s pj fj env now qr).inv.eims_irn ≠ "" →
        (send_to_eims s pj fj env now qr).inv.eims_status = .ok)
    ∧ ((send_to_eims s pj fj env now qr).inv.eims_status = .failed →
        (send_to_eims s pj fj env now qr).inv.eims_irn = "")
    ∧ ((send_to_eims s pj fj env now qr).raised.isSome = true →
        (send_to_eims s pj fj env now qr).inv.eims_irn = "") := by
  cases env with
  | validationFail msg => simp [send_to_eims, h]
  | payloadFail msg => simp [send_to_eims, h, failWrite]
  | keyLoadFail msg => simp [send_to_eims, h]
  | excBeforeSubmit msg => simp [send_to_eims, h, failWrite]
  | timeout => simp [send_to_eims, h, failWrite]
  | connFail msg => simp [send_to_eims, h, failWrite]
  | http resp t =>
    by_cases h1 : resp.statusCode = 200 <;> by_cases h2 : resp.jsonOk = true <;>
      simp [send_to_eims, h1, h2, h, failWrite]

/-- Counterexample to C2 as stated: a posted invoice whose 200 response
    carries no irn field ends in the terminal success status with an empty
    reference number. -/
theorem C2_ok_without_irn_counterexample :
    ((action_post_eims {} "out_invoice" "ET" "p" "f"
        (.http { statusCode := 200, text := "b" } 7) 5 (fun _ => none)).1).eims_status
      = .ok
    ∧ ((action_post_eims {} "out_invoice" "ET" "p" "f"
        (.http { statusCode := 200, text := "b" } 7) 5 (fun _ => none)).1).eims_irn
      = "" :=
  ⟨rfl, rfl⟩

/-- Claim C2 (amended): on every invoice state reachable through the module's
    entry points, a set reference number implies success status and a failed
    status implies an empty reference number; the success status does not
    guarantee a reference number. -/
theorem C2_invariant_reachable (s : InvoiceState) (h : Reachable s) :
    (s.eims_irn ≠ "" → s.eims_status = .ok)
    ∧ (s.eims_status = .failed → s.eims_irn = "") := by
  induction h with
  | init => simp
  | post s mt cc pj fj env now qr hr ih =>
    by_cases hmc : mt = "out_invoice" ∧ cc = "ET"
    · by_cases hirn : s.eims_irn = ""
      · have key := send_to_eims_preserves_invariant s pj fj env now qr hirn
        simp only [action_post_eims, if_pos hmc,
          if_neg (show ¬ s.eims_irn ≠ "" by simp [hirn])]
        cases hs : (send_to_eims s pj fj env now qr).raised with
        | none =>
          simp only [hs]
          exact ⟨key.1, key.2.1⟩
        | some msg =>
          simp only [hs, failWrite]
          have hirn' := key.2.2 (by simp [hs])
          constructor
          · intro hne
            exact absurd hirn' hne
          · intro _
            exact hirn'
      · simp only [action_post_eims, if_pos hmc, if_pos (by simpa using hirn)]
        exact ih
    · simp only [action_post_eims, if_neg hmc]
      exact ih
  | retry s pj fj env now qr hr hsel ih =>
    have key := send_to_eims_preserves_invariant s pj fj env now qr hsel.2
    exact ⟨key.1, key.2.1⟩

/-- Witness for C2 on a concrete reachable state: a first post that times out
    leaves a failed invoice, and the invariant yields an empty reference
    number there. -/
theorem C2_invariant_witness :
    ((action_post_eims {} "out_invoice" "ET" "p" "f" .timeout 5
        (fun _ => none)).1).eims_irn = "" :=
  (C2_invariant_reachable _
    (Reachable.post {} "out_invoice" "ET" "p" "f" .timeout 5 (fun _ => none)
      Reachable.init)).2 rfl

/-- Counterexample to C5 as stated: a certificate expiring exactly today
    (0 days to expiry) gets no alert at all from the sweep — the expired
    alert only fires strictly past expiry — and it is not deactivated. -/
theorem C5_zero_days_counterexample :
    (check_certificate_expiry 0 [⟨1, 1, some 0, true⟩]).1 = []
    ∧ (check_certificate_expiry 0 [⟨1, 1, some 0, true⟩]).2 = [⟨1, 1, some 0, true⟩]
    ∧ days_to_expiry 0 ⟨1, 1, some 0, true⟩ = 0 := by
  decide

/-- Claim C5 (amended): expiry classification behaves as stated at today-1
    (expired), today+7 (critical), today+20 (info) and today+45 (neither), the
    sweep grades alerts at the 30/15/7-day thresholds, and certificates
    strictly past expiry get an expired alert reporting 0 days and are
    auto-deactivated; a certificate expiring exactly today gets neither. -/
theorem C5_expiry_classification_and_sweep (today : Int) (cid comp : Nat)
    (certs : List Certificate) :
    is_expired today ⟨cid, comp, some (today - 1), true⟩ = true
    ∧ (check_certificate_expiry today [⟨cid, comp, some (today + 7), true⟩]).1
        = [(cid, .critical, 7)]
    ∧ (check_certificate_expiry today [⟨cid, comp, some (today + 20), true⟩]).1
        = [(cid, .info, 20)]
    ∧ (is_expired today ⟨cid, comp, some (today + 45), true⟩ = false
        ∧ is_expiring_soon today ⟨cid, comp, some (today + 45), true⟩ = false
        ∧ (check_certificate_expiry today [⟨cid, comp, some (today + 45), true⟩]).1
            = [])
    ∧ (∀ d : Int, 1 ≤ d → d ≤ 7 → gradeAlert d = some .critical)
    ∧ (∀ d : Int, 8 ≤ d → d ≤ 15 → gradeAlert d = some .warning)
    ∧ (∀ d : Int, 16 ≤ d → d ≤ 30 → gradeAlert d = some .info)
    ∧ (∀ c ∈ certs, c.is_active = true → is_expired today c = true →
        { c with is_active := false } ∈ (check_certificate_expiry today certs).2)
    ∧ (∀ c ∈ certs, c.is_active = true → is_expired today c = true →
        (c.id, AlertKind.expired, (0 : Int)) ∈ (check_certificate_expiry today certs).1) := by
  refine ⟨?_, ?_, ?_, ⟨?_, ?_, ?_⟩, ?_, ?_, ?_, ?_, ?_⟩
  · simp only [is_expired]
    simp only [decide_eq_true_eq]
    omega
  · have h1 : inExpiringWindow today ⟨cid, comp, some (today + 7), true⟩ = true := by
      simp only [inExpiringWindow, Bool.true_and, Bool.and_eq_true, decide_eq_true_eq]
      omega
    have h2 : isPastExpiry today ⟨cid, comp, some (today + 7), true⟩ = false := by
      simp only [isPastExpiry, Bool.true_and, decide_eq_false_iff_not]
      omega
    have hd : days_to_expiry today ⟨cid, comp, some (today + 7), true⟩ = 7 := by
      simp only [days_to_expiry]
      omega
    simp [check_certificate_expiry, h1, h2, hd, gradeAlert]
  · have h1 : inExpiringWindow today ⟨cid, comp, some (today + 20), true⟩ = true := by
      simp only [inExpiringWindow, Bool.true_and, Bool.and_eq_true, decide_eq_true_eq]
      omega
    have h2 : isPastExpiry today ⟨cid, comp, some (today + 20), true⟩ = false := by
      simp only [isPastExpiry, Bool.true_and, decide_eq_false_iff_not]
      omega
    have hd : days_to_expiry today ⟨cid, comp, some (today + 20), true⟩ = 20 := by
      simp only [days_to_expiry]
      omega
    simp [check_certificate_expiry, h1, h2, hd, gradeAlert]
  · simp only [is_expired, decide_eq_false_iff_not]
    omega
  · simp only [is_expiring_soon, Bool.and_eq_false_iff, decide_eq_false_iff_not]
    omega
  · have h1 : inExpiringWindow today ⟨cid, comp, some (today + 45), true⟩ = false := by
      simp only [inExpiringWindow, Bool.true_and, Bool.and_eq_false_iff,
        decide_eq_false_iff_not]
      omega
    have h2 : isPastExpiry today ⟨cid, comp, some (today + 45), true⟩ = false := by
      simp only [isPastExpiry, Bool.true_and, decide_eq_false_iff_not]
      omega
    simp [check_certificate_expiry, h1, h2]
  · intro d h1 h2
    simp only [gradeAlert, if_pos h2]
  · intro d h1 h2
    rw [gradeAlert, if_neg (by omega), if_pos h2]
  · intro d h1 h2
    rw [gradeAlert, if_neg (by omega), if_neg (by omega), if_pos h2]
  · intro c hc hact hexp
    have hpe : isPastExpiry today c = true := by
      rcases c with ⟨i, co, ed, ia⟩
      cases ed with
      | none => simp [is_expired] at hexp
      | some d => simp_all [isPastExpiry, is_expired]
    have : { c with is_active := false }
        = (fun c => if isPastExpiry today c then { c with is_active := false } else c) c := by
      simp [hpe]
    rw [this]
    exact List.mem_map_of_mem _ hc
  · intro c hc hact hexp
    have hpe : isPastExpiry today c = true := by
      rcases c with ⟨i, co, ed, ia⟩
      cases ed with
      | none => simp [is_expired] at hexp
      | some d => simp_all [isPastExpiry, is_expired]
    apply List.mem_append_right
    have hmem : c ∈ certs.filter (isPastExpiry today) :=
      List.mem_filter.mpr ⟨hc, hpe⟩
    exact List.mem_map_of_mem _ hmem

/-- Witness for C5 at concrete dates: yesterday's certificate is expired, a
    seven-day certificate draws a critical alert, twenty days grades as info,
    and a long-expired certificate is deactivated by the sweep. -/
theorem C5_expiry_witness :
    is_expired 100 ⟨7, 2, some (100 - 1), true⟩ = true
    ∧ (check_certificate_expiry 100 [⟨7, 2, some (100 + 7), true⟩]).1
        = [(7, .critical, 7)]
    ∧ gradeAlert 20 = some .info
    ∧ { Certificate.mk 7 2 (some 50) true with is_active := false }
        ∈ (check_certificate_expiry 100 [⟨7, 2, some 50, true⟩]).2 := by
  refine ⟨(C5_expiry_classification_and_sweep 100 7 2 []).1,
    (C5_expiry_classification_and_sweep 100 7 2 []).2.1,
    (C5_expiry_classification_and_sweep 100 7 2 []).2.2.2.2.2.2.1 20
      (by norm_num) (by norm_num),
    (C5_expiry_classification_and_sweep 100 7 2
        [⟨7, 2, some 50, true⟩]).2.2.2.2.2.2.2.1 ⟨7, 2, some 50, true⟩
      (by simp) rfl (by decide)⟩

/-! Certificate-store lemmas (claim C8). -/

theorem updActive_id (rid : Nat) (b : Bool) (c : Certificate) :
    (updActive rid b c).id = c.id := by
  unfold updActive
  split <;> rfl

theorem find?_append_none {α : Type} (l₁ l₂ : List α) (p : α → Bool)
    (h : ∀ x ∈ l₁, p x = false) : (l₁ ++ l₂).find? p = l₂.find? p := by
  induction l₁ with
  | nil => rfl
  | cons x xs ih =>
    rw [List.cons_append, List.find?_cons_of_neg _ (by simp [h x (by simp)]),
      ih (fun y hy => h y (by simp [hy]))]

theorem length_filter_le_of_imp {α : Type} (l : List α) (p q : α → Bool)
    (h : ∀ x ∈ l, p x = true → q x = true) :
    (l.filter p).length ≤ (l.filter q).length := by
  induction l with
  | nil => simp
  | cons x xs ih =>
    have ih' := ih (fun y hy => h y (by simp [hy]))
    by_cases hp : p x = true
    · rw [List.filter_cons_of_pos hp, List.filter_cons_of_pos (h x (by simp) hp)]
      simpa using ih'
    · rw [List.filter_cons_of_neg (by simpa using hp)]
      by_cases hq : q x = true
      · rw [List.filter_cons_of_pos hq]
        exact le_trans ih' (by simp)
      · rw [List.filter_cons_of_neg (by simpa using hq)]
        exact ih'

theorem length_filter_id_le_one (l : List Certificate)
    (hnd : (l.map Certificate.id).Nodup) (rid : Nat) :
    (l.filter (fun c => decide (c.id = rid))).length ≤ 1 := by
  induction l with
  | nil => simp
  | cons x xs ih =>
    rw [List.map_cons, List.nodup_cons] at hnd
    by_cases h : x.id = rid
    · rw [List.filter_cons_of_pos (by simp [h])]
      have hnil : xs.filter (fun c => decide (c.id = rid)) = [] := by
        rw [List.filter_eq_nil_iff]
        intro y hy
        simp only [decide_eq_true_eq]
        intro hyid
        exact hnd.1 (by rw [h, ← hyid]; exact List.mem_map_of_mem _ hy)
      simp [hnil]
    · rw [List.filter_cons_of_neg (by simp [h])]
      exact ih hnd.2

theorem find?_map_updActive (l : List Certificate) (rid : Nat) (b : Bool) :
    (l.map (updActive rid b)).find? (fun c => decide (c.id = rid))
      = (l.find? (fun c => decide (c.id = rid))).map (updActive rid b) := by
  induction l with
  | nil => rfl
  | cons x xs ih =>
    by_cases h : x.id = rid
    · rw [List.map_cons, List.find?_cons_of_pos _ (by simp [updActive_id, h]),
        List.find?_cons_of_pos _ (by simp [h])]
      rfl
    · rw [List.map_cons, List.find?_cons_of_neg _ (by simp [updActive_id, h]),
        List.find?_cons_of_neg _ (by simp [h]), ih]

/-- The per-company active-count predicate of countActive. -/
theorem countActive_eq (certs : List Certificate) (comp : Nat) :
    countActive certs comp
      = (certs.filter (fun c => c.is_active && decide (c.company = comp))).length := rfl

theorem length_filter_map_le {α : Type} (l : List α) (f : α → α) (p : α → Bool)
    (h : ∀ x ∈ l, p (f x) = true → p x = true) :
    ((l.map f).filter p).length ≤ (l.filter p).length := by
  induction l with
  | nil => simp
  | cons x xs ih =>
    have ih' := ih (fun y hy => h y (by simp [hy]))
    rw [List.map_cons]
    by_cases hp : p (f x) = true
    · rw [List.filter_cons_of_pos hp, List.filter_cons_of_pos (h x (by simp) hp)]
      simpa using ih'
    · rw [List.filter_cons_of_neg (by simpa using hp)]
      by_cases hq : p x = true
      · rw [List.filter_cons_of_pos hq]
        exact le_trans ih' (by simp)
      · rw [List.filter_cons_of_neg (by simpa using hq)]
        exact ih'

theorem store_invariant (certs : List Certificate) (h : StoreReach certs) :
    (certs.map Certificate.id).Nodup ∧ ∀ comp, countActive certs comp ≤ 1 := by
  induction h with
  | init => simp [countActive]
  | create certs c hr hid ih =>
    by_cases hc : checkActiveConstraint (certs ++ [c]) c.id = true
    · have hres : (create_cert certs c).toOption.getD certs = certs ++ [c] := by
        simp only [create_cert, if_pos hc]
        rfl
      rw [hres]
      constructor
      · rw [List.map_append, List.nodup_append]
        refine ⟨ih.1, by simp, ?_⟩
        intro a ha hb
        rcases List.mem_map.mp ha with ⟨x, hx, rfl⟩
        have hbb : x.id = c.id := by simpa using hb
        exact hid x hx hbb
      · intro comp
        rw [countActive_eq, List.filter_append]
        by_cases hact : c.is_active = true
        · -- active creation: the constraint guarantees no active peer
          have hfind : (certs ++ [c]).find? (fun x => decide (x.id = c.id)) = some c := by
            rw [find?_append_none _ _ _ (fun x hx => by simp [hid x hx])]
            exact List.find?_cons_of_pos _ (by simp)
          unfold checkActiveConstraint at hc
          rw [hfind] at hc
          simp only [hact, Bool.not_true, Bool.false_or, Bool.not_eq_true'] at hc
          have hnone := List.any_eq_false.mp hc
          have key : ∀ a ∈ certs, ¬(a.is_active = true ∧ a.company = c.company) := by
            rintro a ha ⟨h1, h2⟩
            refine hnone a (List.mem_append_left _ ha) ?_
            simp [hid a ha, h1, h2]
          by_cases hcomp : comp = c.company
          · have hnil :
                certs.filter (fun x => x.is_active && decide (x.company = comp)) = [] := by
              rw [List.filter_eq_nil_iff]
              intro a ha
              simp only [Bool.and_eq_true, decide_eq_true_eq, not_and]
              intro h1 h2
              exact key a ha ⟨h1, hcomp ▸ h2⟩
            rw [hnil, List.nil_append]
            exact le_trans (List.length_filter_le _ _) (by simp)
          · have hnil :
                [c].filter (fun x => x.is_active && decide (x.company = comp)) = [] := by
              rw [List.filter_eq_nil_iff]
              intro a ha
              have ha' : a = c := by simpa using ha
              subst ha'
              simp only [Bool.and_eq_true, decide_eq_true_eq, not_and]
              intro _ h2
              exact hcomp (h2 ▸ rfl)
            rw [hnil, List.append_nil]
            exact ih.2 comp
        · have hnil :
              [c].filter (fun x => x.is_active && decide (x.company = comp)) = [] := by
            rw [List.filter_eq_nil_iff]
            intro a ha
            have ha' : a = c := by simpa using ha
            subst ha'
            simp [Bool.and_eq_true, hact]
          rw [hnil, List.append_nil]
          exact ih.2 comp
    · have hres : (create_cert certs c).toOption.getD certs = certs := by
        simp [create_cert, hc, Except.toOption]
      rw [hres]
      exact ih
  | write certs rid b hr ih =>
    by_cases hc : checkActiveConstraint (certs.map (updActive rid b)) rid = true
    · have hres : (write_active certs rid b).toOption.getD certs
          = certs.map (updActive rid b) := by
        simp only [write_active, if_pos hc]
        rfl
      rw [hres]
      have hids : (certs.map (updActive rid b)).map Certificate.id
          = certs.map Certificate.id := by
        rw [List.map_map]
        exact List.map_congr_left (fun x _ => updActive_id rid b x)
      refine ⟨by rw [hids]; exact ih.1, ?_⟩
      intro comp
      cases b with
      | false =>
        rw [countActive_eq]
        refine le_trans (length_filter_map_le certs _ _ ?_) (ih.2 comp)
        intro x hx hfx
        by_cases hxid : x.id = rid
        · simp [updActive, hxid] at hfx
        · simpa [updActive, hxid] using hfx
      | true =>
        cases hfind : certs.find? (fun x => decide (x.id = rid)) with
        | none =>
          have hmap : certs.map (updActive rid true) = certs := by
            have hno := List.find?_eq_none.mp hfind
            have : certs.map (updActive rid true) = certs.map id :=
              List.map_congr_left (fun x hx => by
                have hne : ¬ x.id = rid := by simpa using hno x hx
                simp [updActive, hne])
            rw [this, List.map_id]
          rw [hmap]
          exact ih.2 comp
        | some r₀ =>
          have hmem := List.mem_of_find?_eq_some hfind
          have hr₀id : r₀.id = rid := by simpa using List.find?_some hfind
          have hfind' : (certs.map (updActive rid true)).find?
              (fun x => decide (x.id = rid)) = some { r₀ with is_active := true } := by
            rw [find?_map_updActive, hfind]
            simp [updActive, hr₀id]
          unfold checkActiveConstraint at hc
          rw [hfind'] at hc
          simp only [Bool.not_true, Bool.false_or, Bool.not_eq_true'] at hc
          have hnoOther : ∀ a ∈ certs.map (updActive rid true), a.id ≠ rid →
              ¬(a.company = r₀.company ∧ a.is_active = true) := by
            rintro a ha hne ⟨h1, h2⟩
            refine List.any_eq_false.mp hc a ha ?_
            simp [hne, h1, h2]
          by_cases hcomp : comp = r₀.company
          · rw [countActive_eq]
            refine le_trans (length_filter_le_of_imp _ _
              (fun x => decide (x.id = rid)) ?_) ?_
            · intro a ha hPa
              simp only [Bool.and_eq_true, decide_eq_true_eq] at hPa
              simp only [decide_eq_true_eq]
              by_contra hne
              exact hnoOther a ha hne ⟨hcomp ▸ hPa.2, hPa.1⟩
            · exact length_filter_id_le_one _ (by rw [hids]; exact ih.1) rid
          · rw [countActive_eq]
            refine le_trans (length_filter_map_le certs _ _ ?_) (ih.2 comp)
            intro x hx hfx
            by_cases hxid : x.id = rid
            · have hx_eq : x = r₀ :=
                List.inj_on_of_nodup_map ih.1 hx hmem (by rw [hxid, hr₀id])
              subst hx_eq
              simp only [updActive, if_pos hxid, Bool.and_eq_true,
                decide_eq_true_eq] at hfx
              exact absurd hfx.2 (fun hh => hcomp (hh ▸ rfl))
            · simpa [updActive, hxid] using hfx
    · have hres : (write_active certs rid b).toOption.getD certs = certs := by
        simp [write_active, hc, Except.toOption]
      rw [hres]
      exact ih

/-- Claim C8: in every reachable certificate store each company has at most
    one active certificate, and any creation or activation that would give a
    company a second active certificate is rejected with the conflict error
    (the transaction rolls back). -/
theorem C8_single_active_certificate (certs : List Certificate) (h : StoreReach certs) :
    (∀ comp, countActive certs comp ≤ 1)
    ∧ (∀ c, (∀ x ∈ certs, x.id ≠ c.id) → c.is_active = true →
        (∃ a ∈ certs, a.is_active = true ∧ a.company = c.company) →
        create_cert certs c = .error conflictMsg)
    ∧ (∀ rid r, r ∈ certs → r.id = rid →
        (∃ a ∈ certs, a.is_active = true ∧ a.id ≠ rid ∧ a.company = r.company) →
        action_activate certs rid = .error conflictMsg) := by
  obtain ⟨hnd, hcount⟩ := store_invariant certs h
  refine ⟨hcount, ?_, ?_⟩
  · rintro c hid hact ⟨a, ha, haact, hacomp⟩
    have hfind : (certs ++ [c]).find? (fun x => decide (x.id = c.id)) = some c := by
      rw [find?_append_none _ _ _ (fun x hx => by simp [hid x hx])]
      exact List.find?_cons_of_pos _ (by simp)
    have hfalse : checkActiveConstraint (certs ++ [c]) c.id = false := by
      unfold checkActiveConstraint
      rw [hfind]
      simp only [hact, Bool.not_true, Bool.false_or, Bool.not_eq_false']
      refine List.any_eq_true.mpr ⟨a, List.mem_append_left _ ha, ?_⟩
      simp [hid a ha, hacomp, haact]
    simp [create_cert, hfalse]
  · rintro rid r hr hrid ⟨a, ha, haact, hane, hacomp⟩
    obtain ⟨r₁, hfind⟩ : ∃ r₁, certs.find? (fun x => decide (x.id = rid)) = some r₁ :=
      Option.isSome_iff_exists.mp
        (List.find?_isSome.mpr ⟨r, hr, by simp [hrid]⟩)
    have hr₁mem := List.mem_of_find?_eq_some hfind
    have hr₁id : r₁.id = rid := by simpa using List.find?_some hfind
    have hr₁eq : r₁ = r :=
      List.inj_on_of_nodup_map hnd hr₁mem hr (by rw [hr₁id, hrid])
    subst hr₁eq
    have hfind' : (certs.map (updActive rid true)).find?
        (fun x => decide (x.id = rid)) = some { r₁ with is_active := true } := by
      rw [find?_map_updActive, hfind]
      simp [updActive, hr₁id]
    have hfalse : checkActiveConstraint (certs.map (updActive rid true)) rid = false := by
      unfold checkActiveConstraint
      rw [hfind']
      simp only [show ({ r₁ with is_active := true } : Certificate).is_active = true
        from rfl, Bool.not_true, Bool.false_or, Bool.not_eq_false']
      refine List.any_eq_true.mpr ⟨a, ?_, ?_⟩
      · have hfix : updActive rid true a = a := by simp [updActive, hane]
        exact hfix ▸ List.mem_map_of_mem _ ha
      · simp [hane, hacomp, haact]
    simp [action_activate, write_active, hfalse]

/-- Witness for C8 on concrete stores: a one-certificate store respects the
    bound, creating a second active certificate for the same company errors,
    and activating an inactive duplicate-company certificate errors. -/
theorem C8_single_active_witness :
    countActive [⟨0, 1, some 100, true⟩] 1 ≤ 1
    ∧ create_cert [⟨0, 1, some 100, true⟩] ⟨5, 1, none, true⟩ = .error conflictMsg
    ∧ action_activate [⟨0, 1, some 100, true⟩, ⟨5, 1, none, false⟩] 5
        = .error conflictMsg := by
  have e1 : (create_cert [] (⟨0, 1, some 100, true⟩ : Certificate)).toOption.getD []
      = [⟨0, 1, some 100, true⟩] := by decide
  have h1 : StoreReach [⟨0, 1, some 100, true⟩] :=
    e1 ▸ StoreReach.create [] ⟨0, 1, some 100, true⟩ StoreReach.init (by simp)
  have e2 : (create_cert [⟨0, 1, some 100, true⟩]
        (⟨5, 1, none, false⟩ : Certificate)).toOption.getD [⟨0, 1, some 100, true⟩]
      = [⟨0, 1, some 100, true⟩, ⟨5, 1, none, false⟩] := by decide
  have h2 : StoreReach [⟨0, 1, some 100, true⟩, ⟨5, 1, none, false⟩] :=
    e2 ▸ StoreReach.create [⟨0, 1, some 100, true⟩] ⟨5, 1, none, false⟩ h1 (by decide)
  refine ⟨(C8_single_active_certificate _ h1).1 1,
    (C8_single_active_certificate _ h1).2.1 ⟨5, 1, none, true⟩ (by decide) rfl
      ⟨⟨0, 1, some 100, true⟩, by simp, rfl, rfl⟩,
    (C8_single_active_certificate _ h2).2.2 5 ⟨5, 1, none, false⟩ (by simp) rfl
      ⟨⟨0, 1, some 100, true⟩, by simp, rfl, by decide, rfl⟩⟩

end EIMS
